import Mathlib

/-!
Verification development for the schema-driven value validation and
transformation engine of the dynamodb-toolbox repository.

The update-mode Set extension (`parseSetExtension`) and the list schema
builder (`ListSchema` mutators) are transcribed from the repository
sources.  The generic Parser engine, the path tracker and the sentinel
predicates are not part of the provided sources (only their callers
and type declarations are), so they are modelled from the spec; the
corresponding definitions carry a `Modelled from the spec` note.

Values are a deep embedding of the JSON-like item values the engine
works on; `none` plays the role of `undefined`.
-/

set_option maxHeartbeats 1000000

/-- Write modes of the engine: key computation, create (put) and update. -/
inductive Mode where
  | key
  | put
  | update
deriving DecidableEq

/-- Required modes of an attribute: `atLeastOnce` (the implicit default),
`always`, `never`. -/
inductive RequiredMode where
  | atLeastOnce
  | always
  | never
deriving DecidableEq

/-- Path segments: attribute names (which also cover the operation tag
segments introduced by extensions) and list indices. -/
inductive Seg where
  | attr : String → Seg
  | idx : Nat → Seg
deriving DecidableEq

/-- Item values: scalars, sets, lists and string-keyed maps.
`undefined` is represented by `Option` at the use sites. -/
inductive Val where
  | str : String → Val
  | num : Int → Val
  | boolV : Bool → Val
  | setV : List Val → Val
  | listV : List Val → Val
  | mapV : List (String × Val) → Val

/-- Result of a configured validator: `true`, `false`, or a message
string (the latter two raise ValidationFailed). -/
inductive ValidRes where
  | ok
  | fail
  | msg : String → ValidRes

/-- A bidirectional transformer attached to an attribute. -/
structure Transformer where
  encode : Val → Val
  decode : Val → Val

/-- The property record shared by every schema node, mirroring the
`SchemaProps` record of the source: every property is optional
(`none` models an absent key). Defaults are modelled as values
(a zero-argument producer is observationally a value); links are
functions of the already-filled sibling values. -/
structure SchemaProps where
  required : Option RequiredMode := none
  hidden : Option Bool := none
  key : Option Bool := none
  savedAs : Option String := none
  keyDefault : Option Val := none
  putDefault : Option Val := none
  updateDefault : Option Val := none
  keyLink : Option (List (String × Val) → Val) := none
  putLink : Option (List (String × Val) → Val) := none
  updateLink : Option (List (String × Val) → Val) := none
  keyValidator : Option (Val → ValidRes) := none
  putValidator : Option (Val → ValidRes) := none
  updateValidator : Option (Val → ValidRes) := none
  transformer : Option Transformer := none

mutual
/-- Schema nodes: the closed variant over scalar kinds, sets, lists and
maps/items, each carrying a property record (children where composite). -/
inductive Sch where
  | strS : SchemaProps → Sch
  | numS : SchemaProps → Sch
  | boolS : SchemaProps → Sch
  | setS : SchemaProps → Sch → Sch
  | listS : SchemaProps → Sch → Sch
  | mapS : SchemaProps → AttrList → Sch

/-- Named children of a map/item schema, in declaration order. -/
inductive AttrList where
  | anil : AttrList
  | acons : String → Sch → AttrList → AttrList
end

/-- The property record of a schema node. -/
def Sch.props : Sch → SchemaProps
  | .strS p => p
  | .numS p => p
  | .boolS p => p
  | .setS p _ => p
  | .listS p _ => p
  | .mapS p _ => p

/-- The per-mode default of a property record. -/
def modeDefault (p : SchemaProps) : Mode → Option Val
  | .key => p.keyDefault
  | .put => p.putDefault
  | .update => p.updateDefault

/-- The per-mode link of a property record. -/
def modeLink (p : SchemaProps) : Mode → Option (List (String × Val) → Val)
  | .key => p.keyLink
  | .put => p.putLink
  | .update => p.updateLink

/-- The per-mode validator of a property record. -/
def modeValidator (p : SchemaProps) : Mode → Option (Val → ValidRes)
  | .key => p.keyValidator
  | .put => p.putValidator
  | .update => p.updateValidator

/-- Effective required mode: the source defaults an unset `required`
property to `atLeastOnce`. -/
def effRequired (p : SchemaProps) : RequiredMode :=
  p.required.getD .atLeastOnce

/-- Modelled from the spec: required-ness per write mode — `atLeastOnce`
is required only in create (put) mode, `always` in every mode, `never`
in no mode. -/
def requiredInMode : RequiredMode → Mode → Bool
  | .always, _ => true
  | .never, _ => false
  | .atLeastOnce, .put => true
  | .atLeastOnce, _ => false

/-- Error reasons of the engine. -/
inductive Reason where
  | requiredAttributeMissing
  | typeMismatch
  | validationFailed : String → Reason
  | renameConflict
deriving DecidableEq

/-- A schema error: the path of the failure point and its reason. -/
structure SchemaError where
  path : List Seg
  reason : Reason

/-- Name membership in an attribute list. -/
def nameMem : AttrList → String → Bool
  | .anil, _ => false
  | .acons n _ rest, k => k = n || nameMem rest k

/-- First value bound to a key in an association list. -/
def lookupKV : List (String × Val) → String → Option Val
  | [], _ => none
  | (k, v) :: rest, n => if k = n then some v else lookupKV rest n

/-- Remove the first binding of a key from an association list. -/
def eraseKV : List (String × Val) → String → List (String × Val)
  | [], _ => []
  | (k, v) :: rest, n => if k = n then rest else (k, v) :: eraseKV rest n

/-- Run a validator (if configured) on a value; `false` raises
ValidationFailed with a generic message, a string result with that
message. -/
def runValidator (vo : Option (Val → ValidRes)) (v : Val) (path : List Seg) :
    Except SchemaError Val :=
  match vo with
  | none => .ok v
  | some f =>
    match f v with
    | .ok => .ok v
    | .fail => .error ⟨path, .validationFailed ("Validation failed")⟩
    | .msg s => .error ⟨path, .validationFailed s⟩

/-- Index-aware effectful map over a list of values, short-circuiting on
the first error (depth-first, left-to-right order). -/
def mapIdxM (f : Nat → Val → Except SchemaError Val) :
    Nat → List Val → Except SchemaError (List Val)
  | _, [] => .ok []
  | i, v :: vs =>
    match f i v with
    | .error e => .error e
    | .ok v' =>
      match mapIdxM f (i + 1) vs with
      | .error e => .error e
      | .ok vs' => .ok (v' :: vs')

/-- Modelled from the spec: the fill step of the per-node algorithm.
When filling is on and the input is undefined, the mode's link
(evaluated on the already filled sibling values `ctx`), else the
mode's default, resolves the value; otherwise the input is kept. -/
def fillResolve (fl : Bool) (p : SchemaProps) (m : Mode)
    (input : Option Val) (ctx : List (String × Val)) : Option Val :=
  match input with
  | some v => some v
  | none =>
    match fl with
    | true =>
      match modeLink p m with
      | some l => some (l ctx)
      | none => modeDefault p m
    | false => none

/-- Chain the mode's validator after a type check result. -/
def andThenValidate (vo : Option (Val → ValidRes))
    (r : Except SchemaError Val) (path : List Seg) :
    Except SchemaError Val :=
  match r with
  | .error er => .error er
  | .ok v' => runValidator vo v' path

/-- Re-wrap an element-wise result as a set value. -/
def okSetV : Except SchemaError (List Val) → Except SchemaError Val
  | .error er => .error er
  | .ok vs => .ok (.setV vs)

/-- Re-wrap an element-wise result as a list value. -/
def okListV : Except SchemaError (List Val) → Except SchemaError Val
  | .error er => .error er
  | .ok vs => .ok (.listV vs)

/-- Key-set conformance guard of a map node: the children result counts
only when every input key is a declared child name, else the node
reports a type mismatch. -/
def mapGuard (ok : Bool) (r : Except SchemaError (List (String × Val)))
    (path : List Seg) : Except SchemaError Val :=
  match ok, r with
  | true, .error er => .error er
  | true, .ok kvs' => .ok (.mapV kvs')
  | false, _ => .error ⟨path, .typeMismatch⟩

/-- Unwrap the engine's result for a defined element (a defined input
never resolves to an undefined output). -/
def elemUnwrap (w : Val) : Except SchemaError (Option Val) →
    Except SchemaError Val
  | .error er => .error er
  | .ok (some w') => .ok w'
  | .ok none => .ok w

mutual
/-- Modelled from the spec: the per-node algorithm of the Parser engine
(the engine itself is not under the provided sources).  The fill step
(`fillResolve`) resolves an undefined input when filling is on; a
value still undefined is rejected iff the mode makes the attribute
required; a defined value is type-checked and validated by
`checkDefined`. -/
def fillValidate (m : Mode) (fl : Bool) (sch : Sch) (input : Option Val)
    (path : List Seg) (ctx : List (String × Val)) :
    Except SchemaError (Option Val) :=
  match fillResolve fl sch.props m input ctx with
  | none =>
    match requiredInMode (effRequired sch.props) m with
    | true => .error ⟨path, .requiredAttributeMissing⟩
    | false => .ok none
  | some v =>
    match checkDefined m fl sch v path with
    | .error er => .error er
    | .ok v' => .ok (some v')

/-- Modelled from the spec: type-check a defined value against the node
kind (element-wise for sets/lists, key-set conformance and child
recursion for maps), then run the mode's validator. -/
def checkDefined (m : Mode) (fl : Bool) (sch : Sch) (v : Val)
    (path : List Seg) : Except SchemaError Val :=
  andThenValidate (modeValidator sch.props m)
    (match sch, v with
     | .strS _, .str s => Except.ok (Val.str s)
     | .numS _, .num n => .ok (.num n)
     | .boolS _, .boolV b => .ok (.boolV b)
     | .setS _ e, .setV vs => okSetV (mapIdxM (elemParse m fl e path) 0 vs)
     | .listS _ e, .listV vs => okListV (mapIdxM (elemParse m fl e path) 0 vs)
     | .mapS _ attrs, .mapV kvs =>
       mapGuard (kvs.all (fun kv => nameMem attrs kv.1))
         (checkAttrs m fl attrs kvs path []) path
     | _, _ => .error ⟨path, .typeMismatch⟩) path

/-- Modelled from the spec: parse one (defined) element of a set or
list value against the element schema, at the path extended by the
element's index. -/
def elemParse (m : Mode) (fl : Bool) (e : Sch) (path : List Seg) (i : Nat)
    (w : Val) : Except SchemaError Val :=
  elemUnwrap w (fillValidate m fl e (some w) (path ++ [Seg.idx i]) [])

/-- Modelled from the spec: fill and validate the children of a map
node in declaration order, each child pulling its own input by name,
accumulating filled siblings for link evaluation; an absent child is
retained as absent when its mode does not require it. -/
def checkAttrs (m : Mode) (fl : Bool) (attrs : AttrList)
    (kvs : List (String × Val)) (path : List Seg)
    (ctx : List (String × Val)) :
    Except SchemaError (List (String × Val)) :=
  match attrs with
  | .anil => .ok []
  | .acons n cs rest =>
    match fillValidate m fl cs (lookupKV kvs n) (path ++ [Seg.attr n]) ctx with
    | .error er => .error er
    | .ok (some v') =>
      match checkAttrs m fl rest (eraseKV kvs n) path (ctx ++ [(n, v')]) with
      | .error er => .error er
      | .ok tail => .ok ((n, v') :: tail)
    | .ok none => checkAttrs m fl rest (eraseKV kvs n) path ctx
end

/-- Apply the configured encoder of a node to a value (identity when no
transformer is configured). -/
def applyEncode (p : SchemaProps) (v : Val) : Val :=
  match p.transformer with
  | some t => t.encode v
  | none => v

/-- Stored name of a map child: its `savedAs` property, else its
schema-level name. -/
def storedName (n : String) (cs : Sch) : String :=
  cs.props.savedAs.getD n

/-- Whether a list of keys contains a duplicate. -/
def hasDup : List String → Bool
  | [] => false
  | k :: rest => rest.contains k || hasDup rest

mutual
/-- Modelled from the spec: the transform phase — apply renames
(`savedAs`) to map children (raising RenameConflict when two children
resolve to the same stored name), the configured encoder to scalar
values, and recurse into composite children. -/
def transformVal (sch : Sch) (v : Val) (path : List Seg) :
    Except SchemaError Val :=
  match sch, v with
  | .setS _ e, .setV vs =>
    match mapIdxM (fun i w => transformVal e w (path ++ [Seg.idx i])) 0 vs with
    | .error er => .error er
    | .ok vs' => .ok (.setV vs')
  | .listS _ e, .listV vs =>
    match mapIdxM (fun i w => transformVal e w (path ++ [Seg.idx i])) 0 vs with
    | .error er => .error er
    | .ok vs' => .ok (.listV vs')
  | .mapS _ attrs, .mapV kvs =>
    match transformAttrs attrs kvs path with
    | .error er => .error er
    | .ok kvs' =>
      match hasDup (kvs'.map Prod.fst) with
      | true => .error ⟨path, .renameConflict⟩
      | false => .ok (.mapV kvs')
  | sch', v' => .ok (applyEncode sch'.props v')

/-- Modelled from the spec: transform the defined children of a map
node, renaming each to its stored name. -/
def transformAttrs (attrs : AttrList) (kvs : List (String × Val))
    (path : List Seg) : Except SchemaError (List (String × Val)) :=
  match attrs with
  | .anil => .ok []
  | .acons n cs rest =>
    match lookupKV kvs n with
    | some v =>
      match transformVal cs v (path ++ [Seg.attr n]) with
      | .error er => .error er
      | .ok v' =>
        match transformAttrs rest (eraseKV kvs n) path with
        | .error er => .error er
        | .ok tail => .ok ((storedName n cs, v') :: tail)
    | none => transformAttrs rest kvs path
end

/-- Options of a parse call, with their source defaults. -/
structure ParseOptions where
  fill : Bool := true
  transform : Bool := true
  mode : Mode := .put
  valuePath : List Seg := []

/-- The two checkpoints of a parse call: the filled value (resume 1) and
the final value (resume 2 when transform is requested, otherwise the
filled value is final). -/
structure PRun where
  filled : Option Val
  transformed : Option Val

/-- Transform an optional value (absence stays absent). -/
def transformOpt (sch : Sch) (v? : Option Val) (path : List Seg) :
    Except SchemaError (Option Val) :=
  match v? with
  | none => .ok none
  | some v =>
    match transformVal sch v path with
    | .error er => .error er
    | .ok v' => .ok (some v')

/-- Modelled from the spec: `start(schema, rawInput, options)` — fill
and validate, then (only when requested) transform; any error aborts
the whole call. -/
def parse (sch : Sch) (input : Option Val) (o : ParseOptions) :
    Except SchemaError PRun :=
  match fillValidate o.mode o.fill sch input o.valuePath [] with
  | .error er => .error er
  | .ok filled =>
    match o.transform with
    | true =>
      match transformOpt sch filled o.valuePath with
      | .error er => .error er
      | .ok tr => .ok ⟨filled, tr⟩
    | false => .ok ⟨filled, filled⟩

/-- Whether a validator (if any) accepts a value. -/
def acceptsValidator (vo : Option (Val → ValidRes)) (v : Val) : Bool :=
  match vo with
  | none => true
  | some f =>
    match f v with
    | .ok => true
    | _ => false

mutual
/-- Shape conformance of a value to a schema in a given mode: matching
head kinds, element-wise conformance for sets and lists, and for maps
an in-order match of the input entries against the (distinctly named)
declared children, where a child may be absent only when the mode does
not require it. -/
def conforms (m : Mode) (sch : Sch) (v : Val) : Bool :=
  match sch, v with
  | .strS _, .str _ => true
  | .numS _, .num _ => true
  | .boolS _, .boolV _ => true
  | .setS _ e, .setV vs => vs.all (fun w => conforms m e w)
  | .listS _ e, .listV vs => vs.all (fun w => conforms m e w)
  | .mapS _ attrs, .mapV kvs => conformsAttrs m attrs kvs
  | _, _ => false

/-- Shape conformance of map entries to an attribute list (see
`conforms`). -/
def conformsAttrs (m : Mode) (attrs : AttrList) (kvs : List (String × Val)) :
    Bool :=
  match attrs, kvs with
  | .anil, [] => true
  | .anil, _ :: _ => false
  | .acons n cs rest, [] =>
    !requiredInMode (effRequired cs.props) m && !nameMem rest n &&
      conformsAttrs m rest []
  | .acons n cs rest, (k, w) :: kvs' =>
    !nameMem rest n &&
      (if k = n then conforms m cs w && conformsAttrs m rest kvs'
       else !requiredInMode (effRequired cs.props) m &&
         conformsAttrs m rest ((k, w) :: kvs'))
end

mutual
/-- Whether every validator configured for the mode, at every node the
value reaches, accepts the corresponding (sub)value. -/
def valsOk (m : Mode) (sch : Sch) (v : Val) : Bool :=
  acceptsValidator (modeValidator sch.props m) v &&
    (match sch, v with
     | .setS _ e, .setV vs => vs.all (fun w => valsOk m e w)
     | .listS _ e, .listV vs => vs.all (fun w => valsOk m e w)
     | .mapS _ attrs, .mapV kvs => valsOkAttrs m attrs kvs
     | _, _ => true)

/-- Validator acceptance over the entries of a map value (see
`valsOk`). -/
def valsOkAttrs (m : Mode) (attrs : AttrList) (kvs : List (String × Val)) :
    Bool :=
  match attrs, kvs with
  | .anil, _ => true
  | .acons _ _ _, [] => true
  | .acons n cs rest, (k, w) :: kvs' =>
    if k = n then valsOk m cs w && valsOkAttrs m rest kvs'
    else valsOkAttrs m rest ((k, w) :: kvs')
end

/-- The list schema builder of the source: an element schema and a
property record. -/
structure ListSchema where
  elements : Sch
  props : SchemaProps

/-- `required`: overwrite the `required` property. -/
def ListSchema.required (s : ListSchema) (r : RequiredMode) : ListSchema :=
  ⟨s.elements, { s.props with required := some r }⟩

/-- `optional`: shorthand for `required('never')`. -/
def ListSchema.optional (s : ListSchema) : ListSchema :=
  s.required .never

/-- `hidden`: overwrite the `hidden` property. -/
def ListSchema.hidden (s : ListSchema) (b : Bool) : ListSchema :=
  ⟨s.elements, { s.props with hidden := some b }⟩

/-- `key`: overwrite the `key` property and, as in the source, also the
`required` property to `always`. -/
def ListSchema.key (s : ListSchema) (b : Bool) : ListSchema :=
  ⟨s.elements, { s.props with key := some b, required := some .always }⟩

/-- `savedAs`: overwrite the `savedAs` property. -/
def ListSchema.savedAs (s : ListSchema) (n : Option String) : ListSchema :=
  ⟨s.elements, { s.props with savedAs := n }⟩

/-- `keyDefault`: overwrite the `keyDefault` property. -/
def ListSchema.keyDefault (s : ListSchema) (v : Val) : ListSchema :=
  ⟨s.elements, { s.props with keyDefault := some v }⟩

/-- `putDefault`: overwrite the `putDefault` property. -/
def ListSchema.putDefault (s : ListSchema) (v : Val) : ListSchema :=
  ⟨s.elements, { s.props with putDefault := some v }⟩

/-- `updateDefault`: overwrite the `updateDefault` property. -/
def ListSchema.updateDefault (s : ListSchema) (v : Val) : ListSchema :=
  ⟨s.elements, { s.props with updateDefault := some v }⟩

/-- `default`: overwrite `keyDefault` when the schema is tagged as key
(an unset `key` property is falsy), else `putDefault`. -/
def ListSchema.default (s : ListSchema) (v : Val) : ListSchema :=
  if s.props.key.getD false then
    ⟨s.elements, { s.props with keyDefault := some v }⟩
  else
    ⟨s.elements, { s.props with putDefault := some v }⟩

/-- `keyLink`: overwrite the `keyLink` property. -/
def ListSchema.keyLink (s : ListSchema)
    (f : List (String × Val) → Val) : ListSchema :=
  ⟨s.elements, { s.props with keyLink := some f }⟩

/-- `putLink`: overwrite the `putLink` property. -/
def ListSchema.putLink (s : ListSchema)
    (f : List (String × Val) → Val) : ListSchema :=
  ⟨s.elements, { s.props with putLink := some f }⟩

/-- `updateLink`: overwrite the `updateLink` property. -/
def ListSchema.updateLink (s : ListSchema)
    (f : List (String × Val) → Val) : ListSchema :=
  ⟨s.elements, { s.props with updateLink := some f }⟩

/-- `link`: overwrite `keyLink` when the schema is tagged as key, else
`putLink`. -/
def ListSchema.link (s : ListSchema)
    (f : List (String × Val) → Val) : ListSchema :=
  if s.props.key.getD false then
    ⟨s.elements, { s.props with keyLink := some f }⟩
  else
    ⟨s.elements, { s.props with putLink := some f }⟩

/-- `keyValidate`: overwrite the `keyValidator` property. -/
def ListSchema.keyValidate (s : ListSchema) (f : Val → ValidRes) :
    ListSchema :=
  ⟨s.elements, { s.props with keyValidator := some f }⟩

/-- `putValidate`: overwrite the `putValidator` property. -/
def ListSchema.putValidate (s : ListSchema) (f : Val → ValidRes) :
    ListSchema :=
  ⟨s.elements, { s.props with putValidator := some f }⟩

/-- `updateValidate`: overwrite the `updateValidator` property. -/
def ListSchema.updateValidate (s : ListSchema) (f : Val → ValidRes) :
    ListSchema :=
  ⟨s.elements, { s.props with updateValidator := some f }⟩

/-- `validate`: overwrite `keyValidator` when the schema is tagged as
key, else `putValidator`. -/
def ListSchema.validate (s : ListSchema) (f : Val → ValidRes) :
    ListSchema :=
  if s.props.key.getD false then
    ⟨s.elements, { s.props with keyValidator := some f }⟩
  else
    ⟨s.elements, { s.props with putValidator := some f }⟩

/-- Update-mode inputs: a plain (unextended) value, or an operation
wrapper of the closed sentinel variant (ADD, DELETE, REMOVE, SET,
GET-reference) carrying one tagged payload, whose payload may itself
be undefined (`none`). -/
inductive UVal where
  | base : Val → UVal
  | addU : Option Val → UVal
  | deleteU : Option Val → UVal
  | removeU : Option Val → UVal
  | setU : Option Val → UVal
  | getU : Option Val → UVal

/-- Modelled from the spec: the sentinel predicate `isAddition` — true
iff its argument carries the ADD operation tag with a defined payload
(its definition lives outside the provided sources). -/
def isAddition : UVal → Bool
  | .addU (some _) => true
  | _ => false

/-- Modelled from the spec: the sentinel predicate `isDeletion` — true
iff its argument carries the DELETE operation tag with a defined
payload (its definition lives outside the provided sources). -/
def isDeletion : UVal → Bool
  | .deleteU (some _) => true
  | _ => false

/-- Modelled from the spec: the sentinel predicate `isRemoval` — true
iff its argument carries the REMOVE operation tag with a defined
payload (its definition lives outside the provided sources). -/
def isRemoval : UVal → Bool
  | .removeU (some _) => true
  | _ => false

/-- Modelled from the spec: the sentinel predicate classifying the SET
(full overwrite) operation tag — true iff its argument carries that
tag with a defined payload (its definition lives outside the provided
sources). -/
def isSetting : UVal → Bool
  | .setU (some _) => true
  | _ => false

/-- Modelled from the spec: the sentinel predicate classifying the GET
reference operation tag — true iff its argument carries that tag with
a defined payload (its definition lives outside the provided
sources). -/
def isGetting : UVal → Bool
  | .getU (some _) => true
  | _ => false

/-- Result of an extension: pass the input through to generic handling,
or take over the subtree with a two-resume producer.  The producer is
modelled by the sequence of its resume results, each paired with the
`done` flag the resume reports; a producer is exhausted after the
entry whose flag is `true`. -/
inductive ExtResult where
  | unextended (unextendedInput : UVal)
  | ext (extensionParser : Except SchemaError (List (UVal × Bool)))

/-- The producer built by the Set extension: start the engine on the
operand against the set schema with `fill:false` and the path extended
by the operation-tag segment; resume 1 re-wraps the filled value under
the tag (final when transform is off), resume 2 (transform only)
re-wraps the transformed value. -/
def extRun (wrap : Option Val → UVal) (segment : String) (schema : Sch)
    (v : Val) (transform : Bool) (valuePath : Option (List Seg)) :
    Except SchemaError (List (UVal × Bool)) :=
  match parse schema (some v)
      { fill := false, transform := transform,
        valuePath := valuePath.getD [] ++ [Seg.attr segment] } with
  | .error er => .error er
  | .ok r =>
    match transform with
    | true => .ok [(wrap r.filled, false), (wrap r.transformed, true)]
    | false => .ok [(wrap r.filled, true)]

/-- Transcribed from the source `parseSetExtension`: an ADD wrapper with
a defined payload starts the engine on the payload against `schema`
(the set schema it was given) and re-wraps under ADD; likewise for
DELETE; any other input is passed through unextended. -/
def parseSetExtension (schema : Sch) (input : UVal) (transform : Bool)
    (valuePath : Option (List Seg)) : ExtResult :=
  match input with
  | .addU (some v) =>
    .ext (extRun UVal.addU ("$ADD") schema v transform valuePath)
  | .deleteU (some v) =>
    .ext (extRun UVal.deleteU ("$DELETE") schema v transform valuePath)
  | other => .unextended other

/-- Whether a value is a set value (the top-level kind a Set schema
type-checks). -/
def isSetVal : Val → Bool
  | .setV _ => true
  | _ => false

theorem runValidator_accepts (vo : Option (Val → ValidRes)) (v : Val)
    (path : List Seg) (h : acceptsValidator vo v = true) :
    runValidator vo v path = .ok v := by
  cases vo with
  | none => rfl
  | some f =>
    simp only [acceptsValidator] at h
    simp only [runValidator]
    cases hf : f v <;> rw [hf] at h <;> simp_all

theorem conformsAttrs_keys (m : Mode) (attrs : AttrList)
    (kvs : List (String × Val)) (h : conformsAttrs m attrs kvs = true) :
    ∀ kv ∈ kvs, nameMem attrs kv.1 = true := by
  cases attrs with
  | anil =>
    cases kvs with
    | nil => intro kv hkv; cases hkv
    | cons hd tl => simp only [conformsAttrs] at h; simp at h
  | acons n cs rest =>
    cases kvs with
    | nil => intro kv hkv; cases hkv
    | cons hd tl =>
      obtain ⟨k, w⟩ := hd
      simp only [conformsAttrs] at h
      rw [Bool.and_eq_true] at h
      obtain ⟨hnm, h2⟩ := h
      intro kv hkv
      split at h2
      case isTrue hk =>
        rw [Bool.and_eq_true] at h2
        rcases List.mem_cons.mp hkv with h1 | h1
        · subst h1; simp [nameMem, hk]
        · have := conformsAttrs_keys m rest tl h2.2 kv h1
          simp [nameMem, this]
      case isFalse hk =>
        rw [Bool.and_eq_true] at h2
        have := conformsAttrs_keys m rest ((k, w) :: tl) h2.2 kv hkv
        simp [nameMem, this]

theorem lookupKV_none (kvs : List (String × Val)) (n : String)
    (h : ∀ kv ∈ kvs, kv.1 ≠ n) : lookupKV kvs n = none := by
  induction kvs with
  | nil => rfl
  | cons hd tl ih =>
    obtain ⟨k, w⟩ := hd
    simp only [lookupKV]
    rw [if_neg (h (k, w) (List.mem_cons_self _ _))]
    exact ih (fun kv hkv => h kv (List.mem_cons_of_mem _ hkv))

theorem eraseKV_id (kvs : List (String × Val)) (n : String)
    (h : ∀ kv ∈ kvs, kv.1 ≠ n) : eraseKV kvs n = kvs := by
  induction kvs with
  | nil => rfl
  | cons hd tl ih =>
    obtain ⟨k, w⟩ := hd
    simp only [eraseKV]
    rw [if_neg (h (k, w) (List.mem_cons_self _ _))]
    rw [ih (fun kv hkv => h kv (List.mem_cons_of_mem _ hkv))]

theorem conformsAttrs_not_key (m : Mode) (rest : AttrList)
    (kvs : List (String × Val)) (n : String)
    (h : conformsAttrs m rest kvs = true) (hn : nameMem rest n = false) :
    ∀ kv ∈ kvs, kv.1 ≠ n := by
  intro kv hkv heq
  have hmem := conformsAttrs_keys m rest kvs h kv hkv
  rw [heq, hn] at hmem
  cases hmem

theorem valsOkAttrs_nil (m : Mode) (attrs : AttrList) :
    valsOkAttrs m attrs [] = true := by
  cases attrs <;> rfl

theorem valsOk_accepts (m : Mode) (sch : Sch) (v : Val)
    (h : valsOk m sch v = true) :
    acceptsValidator (modeValidator sch.props m) v = true := by
  cases sch <;> cases v <;>
    (simp only [valsOk, Bool.and_eq_true] at h; exact h.1)

theorem valsOk_set_elems (m : Mode) (p : SchemaProps) (e : Sch)
    (vs : List Val) (h : valsOk m (.setS p e) (.setV vs) = true) :
    ∀ w ∈ vs, valsOk m e w = true := by
  simp only [valsOk, Bool.and_eq_true] at h
  exact List.all_eq_true.mp h.2

theorem valsOk_list_elems (m : Mode) (p : SchemaProps) (e : Sch)
    (vs : List Val) (h : valsOk m (.listS p e) (.listV vs) = true) :
    ∀ w ∈ vs, valsOk m e w = true := by
  simp only [valsOk, Bool.and_eq_true] at h
  exact List.all_eq_true.mp h.2

theorem valsOk_map_attrs (m : Mode) (p : SchemaProps) (attrs : AttrList)
    (kvs : List (String × Val))
    (h : valsOk m (.mapS p attrs) (.mapV kvs) = true) :
    valsOkAttrs m attrs kvs = true := by
  simp only [valsOk, Bool.and_eq_true] at h
  exact h.2

mutual
theorem checkDefined_id (m : Mode) (sch : Sch) (v : Val) (path : List Seg)
    (hc : conforms m sch v = true) (hv : valsOk m sch v = true) :
    checkDefined m false sch v path = .ok v := by
  have hacc := valsOk_accepts m sch v hv
  cases sch with
  | strS p =>
    cases v with
    | str s =>
      simp only [checkDefined, Sch.props, andThenValidate]
      simp only [Sch.props] at hacc
      exact runValidator_accepts _ _ _ hacc
    | num n => exact absurd hc (by simp [conforms])
    | boolV b => exact absurd hc (by simp [conforms])
    | setV vs => exact absurd hc (by simp [conforms])
    | listV vs => exact absurd hc (by simp [conforms])
    | mapV kvs => exact absurd hc (by simp [conforms])
  | numS p =>
    cases v with
    | num n =>
      simp only [checkDefined, Sch.props, andThenValidate]
      simp only [Sch.props] at hacc
      exact runValidator_accepts _ _ _ hacc
    | str s => exact absurd hc (by simp [conforms])
    | boolV b => exact absurd hc (by simp [conforms])
    | setV vs => exact absurd hc (by simp [conforms])
    | listV vs => exact absurd hc (by simp [conforms])
    | mapV kvs => exact absurd hc (by simp [conforms])
  | boolS p =>
    cases v with
    | boolV b =>
      simp only [checkDefined, Sch.props, andThenValidate]
      simp only [Sch.props] at hacc
      exact runValidator_accepts _ _ _ hacc
    | str s => exact absurd hc (by simp [conforms])
    | num n => exact absurd hc (by simp [conforms])
    | setV vs => exact absurd hc (by simp [conforms])
    | listV vs => exact absurd hc (by simp [conforms])
    | mapV kvs => exact absurd hc (by simp [conforms])
  | setS p e =>
    cases v with
    | setV vs =>
      simp only [conforms] at hc
      simp only [checkDefined, Sch.props]
      rw [elemsParse_id m e vs 0 path (List.all_eq_true.mp hc)
        (valsOk_set_elems m p e vs hv)]
      simp only [okSetV, andThenValidate]
      simp only [Sch.props] at hacc
      exact runValidator_accepts _ _ _ hacc
    | str s => exact absurd hc (by simp [conforms])
    | num n => exact absurd hc (by simp [conforms])
    | boolV b => exact absurd hc (by simp [conforms])
    | listV vs => exact absurd hc (by simp [conforms])
    | mapV kvs => exact absurd hc (by simp [conforms])
  | listS p e =>
    cases v with
    | listV vs =>
      simp only [conforms] at hc
      simp only [checkDefined, Sch.props]
      rw [elemsParse_id m e vs 0 path (List.all_eq_true.mp hc)
        (valsOk_list_elems m p e vs hv)]
      simp only [okListV, andThenValidate]
      simp only [Sch.props] at hacc
      exact runValidator_accepts _ _ _ hacc
    | str s => exact absurd hc (by simp [conforms])
    | num n => exact absurd hc (by simp [conforms])
    | boolV b => exact absurd hc (by simp [conforms])
    | setV vs => exact absurd hc (by simp [conforms])
    | mapV kvs => exact absurd hc (by simp [conforms])
  | mapS p attrs =>
    cases v with
    | mapV kvs =>
      simp only [conforms] at hc
      simp only [checkDefined, Sch.props]
      rw [checkAttrs_id m attrs kvs path [] hc (valsOk_map_attrs m p attrs kvs hv)]
      rw [List.all_eq_true.mpr (conformsAttrs_keys m attrs kvs hc)]
      simp only [mapGuard, andThenValidate]
      simp only [Sch.props] at hacc
      exact runValidator_accepts _ _ _ hacc
    | str s => exact absurd hc (by simp [conforms])
    | num n => exact absurd hc (by simp [conforms])
    | boolV b => exact absurd hc (by simp [conforms])
    | setV vs => exact absurd hc (by simp [conforms])
    | listV vs => exact absurd hc (by simp [conforms])

theorem fillValidate_id (m : Mode) (sch : Sch) (v : Val) (path : List Seg)
    (ctx : List (String × Val)) (hc : conforms m sch v = true)
    (hv : valsOk m sch v = true) :
    fillValidate m false sch (some v) path ctx = .ok (some v) := by
  simp only [fillValidate, fillResolve]
  rw [checkDefined_id m sch v path hc hv]

theorem elemsParse_id (m : Mode) (e : Sch) (vs : List Val) (i : Nat)
    (path : List Seg) (hc : ∀ w ∈ vs, conforms m e w = true)
    (hv : ∀ w ∈ vs, valsOk m e w = true) :
    mapIdxM (elemParse m false e path) i vs = .ok vs := by
  cases vs with
  | nil => rfl
  | cons w ws =>
    simp only [mapIdxM, elemParse]
    rw [fillValidate_id m e w (path ++ [Seg.idx i]) []
      (hc w (List.mem_cons_self _ _)) (hv w (List.mem_cons_self _ _))]
    rw [elemsParse_id m e ws (i + 1) path
      (fun x hx => hc x (List.mem_cons_of_mem _ hx))
      (fun x hx => hv x (List.mem_cons_of_mem _ hx))]
    rfl

theorem checkAttrs_id (m : Mode) (attrs : AttrList)
    (kvs : List (String × Val)) (path : List Seg)
    (ctx : List (String × Val)) (hc : conformsAttrs m attrs kvs = true)
    (hv : valsOkAttrs m attrs kvs = true) :
    checkAttrs m false attrs kvs path ctx = .ok kvs := by
  cases attrs with
  | anil =>
    cases kvs with
    | nil => simp only [checkAttrs]
    | cons hd tl => simp only [conformsAttrs] at hc; simp at hc
  | acons n cs rest =>
    cases kvs with
    | nil =>
      simp only [conformsAttrs] at hc
      rw [Bool.and_eq_true, Bool.and_eq_true] at hc
      obtain ⟨⟨hreq, hnm⟩, hrest⟩ := hc
      have hreq' : requiredInMode (effRequired cs.props) m = false := by
        revert hreq; cases requiredInMode (effRequired cs.props) m <;> simp
      simp only [checkAttrs, lookupKV, fillValidate, fillResolve]
      rw [hreq']
      simp only [eraseKV]
      exact checkAttrs_id m rest [] path ctx hrest (valsOkAttrs_nil m rest)
    | cons hd tl =>
      obtain ⟨k, w⟩ := hd
      simp only [conformsAttrs] at hc
      rw [Bool.and_eq_true] at hc
      obtain ⟨hnm, hc2⟩ := hc
      split at hc2
      case isTrue hk =>
        rw [Bool.and_eq_true] at hc2
        obtain ⟨hcw, hctl⟩ := hc2
        simp only [valsOkAttrs] at hv
        rw [if_pos hk] at hv
        rw [Bool.and_eq_true] at hv
        obtain ⟨hvw, hvtl⟩ := hv
        simp only [checkAttrs, lookupKV]
        rw [if_pos hk]
        rw [fillValidate_id m cs w (path ++ [Seg.attr n]) ctx hcw hvw]
        simp only [eraseKV]
        rw [if_pos hk]
        rw [checkAttrs_id m rest tl path (ctx ++ [(n, w)]) hctl hvtl]
        rw [hk]
      case isFalse hk =>
        rw [Bool.and_eq_true] at hc2
        obtain ⟨hreq, hrest⟩ := hc2
        have hreq' : requiredInMode (effRequired cs.props) m = false := by
          revert hreq; cases requiredInMode (effRequired cs.props) m <;> simp
        have hnm' : nameMem rest n = false := by
          revert hnm; cases nameMem rest n <;> simp
        have hneq : ∀ kv ∈ (k, w) :: tl, kv.1 ≠ n :=
          conformsAttrs_not_key m rest ((k, w) :: tl) n hrest hnm'
        simp only [valsOkAttrs] at hv
        rw [if_neg hk] at hv
        simp only [checkAttrs]
        rw [lookupKV_none _ _ hneq, eraseKV_id _ _ hneq]
        simp only [fillValidate, fillResolve]
        rw [hreq']
        exact checkAttrs_id m rest ((k, w) :: tl) path ctx hrest hv
end

theorem parse_id_helper (m : Mode) (sch : Sch) (v : Val) (path : List Seg)
    (hc : conforms m sch v = true) (hv : valsOk m sch v = true) :
    parse sch (some v)
      { fill := false, transform := false, mode := m, valuePath := path } =
      .ok ⟨some v, some v⟩ := by
  simp only [parse]
  rw [fillValidate_id m sch v path [] hc hv]

/-- Claim C10: for every list schema and boolean argument, `key`
overwrites the `required` property to `always` in addition to setting
the `key` property, regardless of the previously configured required
mode, with the element schema unchanged. -/
theorem listSchema_key_sets_required_always (s : ListSchema) (b : Bool) :
    (s.key b).props.required = some .always ∧
    (s.key b).props.key = some b ∧
    (s.key b).elements = s.elements :=
  ⟨rfl, rfl, rfl⟩

/-- Claim C6 (amended): every builder-style mutator returns a new schema
value whose property record is the receiver's with the designated
properties overwritten and whose element schema is unchanged (the
receiver itself is untouched); every listed mutator except `key`
overwrites exactly one property, while `key` overwrites two: `key`
and `required` (to `always`). -/
theorem listSchema_mutators_overwrite_props (s : ListSchema)
    (r : RequiredMode) (b : Bool) (n : Option String) (v : Val)
    (f : List (String × Val) → Val) (g : Val → ValidRes) :
    s.required r = ⟨s.elements, { s.props with required := some r }⟩ ∧
    s.optional = ⟨s.elements, { s.props with required := some .never }⟩ ∧
    s.hidden b = ⟨s.elements, { s.props with hidden := some b }⟩ ∧
    s.savedAs n = ⟨s.elements, { s.props with savedAs := n }⟩ ∧
    s.keyDefault v = ⟨s.elements, { s.props with keyDefault := some v }⟩ ∧
    s.putDefault v = ⟨s.elements, { s.props with putDefault := some v }⟩ ∧
    s.updateDefault v =
      ⟨s.elements, { s.props with updateDefault := some v }⟩ ∧
    s.default v =
      (if s.props.key.getD false then
        ⟨s.elements, { s.props with keyDefault := some v }⟩
      else ⟨s.elements, { s.props with putDefault := some v }⟩) ∧
    s.keyLink f = ⟨s.elements, { s.props with keyLink := some f }⟩ ∧
    s.putLink f = ⟨s.elements, { s.props with putLink := some f }⟩ ∧
    s.updateLink f = ⟨s.elements, { s.props with updateLink := some f }⟩ ∧
    s.link f =
      (if s.props.key.getD false then
        ⟨s.elements, { s.props with keyLink := some f }⟩
      else ⟨s.elements, { s.props with putLink := some f }⟩) ∧
    s.keyValidate g =
      ⟨s.elements, { s.props with keyValidator := some g }⟩ ∧
    s.putValidate g =
      ⟨s.elements, { s.props with putValidator := some g }⟩ ∧
    s.updateValidate g =
      ⟨s.elements, { s.props with updateValidator := some g }⟩ ∧
    s.validate g =
      (if s.props.key.getD false then
        ⟨s.elements, { s.props with keyValidator := some g }⟩
      else ⟨s.elements, { s.props with putValidator := some g }⟩) ∧
    s.key b =
      ⟨s.elements,
        { s.props with key := some b, required := some .always }⟩ :=
  ⟨rfl, rfl, rfl, rfl, rfl, rfl, rfl, rfl, rfl, rfl, rfl, rfl, rfl, rfl,
    rfl, rfl, rfl⟩

/-- Claim C6 counterexample: on a list schema whose `required` property
is `never`, `key true` also changes the `required` property, so the
result is not the receiver with exactly the one `key` property
overwritten. -/
theorem listSchema_key_single_overwrite_refuted :
    ((ListSchema.mk (Sch.strS {}) { required := some .never }).key
        true).props.required = some .always ∧
    ¬ ((ListSchema.mk (Sch.strS {}) { required := some .never }).key
          true).props =
        { ({ required := some .never } : SchemaProps) with
          key := some true } := by
  refine ⟨rfl, ?_⟩
  intro h
  have h2 := congrArg SchemaProps.required h
  simp [ListSchema.key] at h2

/-- Claim C5: an input the Set extension does not recognize (not an
addition or deletion wrapper with a defined payload) is returned as
`unextended` with the input passed through unchanged. -/
theorem setExtension_passthrough_unrecognized (s : Sch) (t : Bool)
    (vp : Option (List Seg)) (input : UVal)
    (hA : isAddition input = false) (hD : isDeletion input = false) :
    parseSetExtension s input t vp = .unextended input := by
  cases input with
  | base w => rfl
  | addU payload =>
    cases payload with
    | none => rfl
    | some v => simp [isAddition] at hA
  | deleteU payload =>
    cases payload with
    | none => rfl
    | some v => simp [isDeletion] at hD
  | removeU payload => rfl
  | setU payload => rfl
  | getU payload => rfl

/-- Claim C5 witness: a plain numeric input is passed through. -/
theorem setExtension_passthrough_unrecognized_witness :
    isAddition (UVal.base (Val.num 1)) = false ∧
    isDeletion (UVal.base (Val.num 1)) = false ∧
    parseSetExtension (Sch.setS {} (Sch.strS {})) (UVal.base (Val.num 1))
        true none = .unextended (UVal.base (Val.num 1)) :=
  ⟨rfl, rfl,
    setExtension_passthrough_unrecognized (Sch.setS {} (Sch.strS {})) true
      none (UVal.base (Val.num 1)) rfl rfl⟩

/-- Claim C7: each sentinel predicate (`isAddition`, `isDeletion`,
`isRemoval`, and the SET and GET classifiers) is a pure total Boolean
function over arbitrary inputs, true exactly on a wrapper carrying its
matching operation tag with a defined payload. -/
theorem sentinel_predicates_characterization (x : UVal) :
    (isAddition x = true ↔ ∃ v, x = UVal.addU (some v)) ∧
    (isDeletion x = true ↔ ∃ v, x = UVal.deleteU (some v)) ∧
    (isRemoval x = true ↔ ∃ v, x = UVal.removeU (some v)) ∧
    (isSetting x = true ↔ ∃ v, x = UVal.setU (some v)) ∧
    (isGetting x = true ↔ ∃ v, x = UVal.getU (some v)) := by
  cases x with
  | base w => simp [isAddition, isDeletion, isRemoval, isSetting, isGetting]
  | addU payload =>
    cases payload <;>
      simp [isAddition, isDeletion, isRemoval, isSetting, isGetting]
  | deleteU payload =>
    cases payload <;>
      simp [isAddition, isDeletion, isRemoval, isSetting, isGetting]
  | removeU payload =>
    cases payload <;>
      simp [isAddition, isDeletion, isRemoval, isSetting, isGetting]
  | setU payload =>
    cases payload <;>
      simp [isAddition, isDeletion, isRemoval, isSetting, isGetting]
  | getU payload =>
    cases payload <;>
      simp [isAddition, isDeletion, isRemoval, isSetting, isGetting]

/-- Claim C1 (amended): for every Set schema and every defined ADD or
DELETE operand, the Set extension starts the engine on the operand
against the set schema it was handed (the source passes `schema`
itself, not its element schema) with fill off, transform as requested,
and the path extended by the operation-tag segment, then re-wraps the
engine's outputs under the same tag (ADD stays ADD, DELETE stays
DELETE). -/
theorem setExtension_parses_against_set_schema (s : Sch) (v : Val)
    (t : Bool) (vp : Option (List Seg)) :
    parseSetExtension s (.addU (some v)) t vp =
      .ext (match parse s (some v)
          { fill := false, transform := t,
            valuePath := vp.getD [] ++ [Seg.attr ("$ADD")] } with
        | .error er => .error er
        | .ok r =>
          match t with
          | true =>
            .ok [(UVal.addU r.filled, false), (UVal.addU r.transformed, true)]
          | false => .ok [(UVal.addU r.filled, true)]) ∧
    parseSetExtension s (.deleteU (some v)) t vp =
      .ext (match parse s (some v)
          { fill := false, transform := t,
            valuePath := vp.getD [] ++ [Seg.attr ("$DELETE")] } with
        | .error er => .error er
        | .ok r =>
          match t with
          | true =>
            .ok [(UVal.deleteU r.filled, false),
              (UVal.deleteU r.transformed, true)]
          | false => .ok [(UVal.deleteU r.filled, true)]) :=
  ⟨rfl, rfl⟩

/-- Claim C1 counterexample: with a set-of-strings schema, the operand
of `{ADD: 'a'}` is valid against the string element schema, yet the
producer fails with a type mismatch instead of re-wrapping a parse
against the element schema, because the operand is parsed against the
set schema itself. -/
theorem setExtension_element_schema_refuted :
    conforms .put (Sch.strS {}) (.str ("a")) = true ∧
    parseSetExtension (Sch.setS {} (Sch.strS {}))
        (.addU (some (.str ("a")))) false none =
      .ext (.error ⟨[Seg.attr ("$ADD")], .typeMismatch⟩) ∧
    ExtResult.ext (.error ⟨[Seg.attr ("$ADD")], .typeMismatch⟩) ≠
      ExtResult.ext (.ok [(UVal.addU (some (Val.str ("a"))), true)]) := by
  refine ⟨by simp [conforms], ?_, by simp⟩
  simp [parseSetExtension, extRun, parse, fillValidate, fillResolve,
    checkDefined, Sch.props, andThenValidate]

/-- Claim C2 (amended): for every Set schema and every operand valid
against the set schema itself (shape-conforming with every configured
validator accepting), parsing `{ADD: v}` in update mode with transform
off returns exactly `{ADD: v}`: the operand sub-parse always starts
with fill off, so defaults and links never apply inside ADD or DELETE
operands. -/
theorem setExtension_add_identity (p : SchemaProps) (e : Sch) (v : Val)
    (vp : Option (List Seg))
    (hc : conforms .put (Sch.setS p e) v = true)
    (hv : valsOk .put (Sch.setS p e) v = true) :
    parseSetExtension (Sch.setS p e) (.addU (some v)) false vp =
      .ext (.ok [(UVal.addU (some v), true)]) := by
  simp only [parseSetExtension, extRun]
  rw [parse_id_helper .put (Sch.setS p e) v
    (vp.getD [] ++ [Seg.attr ("$ADD")]) hc hv]

/-- Claim C2 witness: adding the one-element string set to a
set-of-strings attribute with transform off returns the wrapper
unchanged. -/
theorem setExtension_add_identity_witness :
    conforms .put (Sch.setS {} (Sch.strS {})) (.setV [.str ("a")]) = true ∧
    parseSetExtension (Sch.setS {} (Sch.strS {}))
        (.addU (some (.setV [.str ("a")]))) false none =
      .ext (.ok [(UVal.addU (some (.setV [.str ("a")])), true)]) :=
  ⟨by simp [conforms],
    setExtension_add_identity {} (Sch.strS {}) (.setV [.str ("a")]) none
      (by simp [conforms])
      (by simp [valsOk, acceptsValidator, modeValidator, Sch.props])⟩

/-- Claim C2 counterexample: 'a' is valid against the string element
schema, but parsing `{ADD: 'a'}` with transform off does not return
`{ADD: 'a'}`: the sub-parse runs against the set schema and fails. -/
theorem setExtension_add_identity_refuted :
    conforms .put (Sch.strS {}) (.str ("a")) = true ∧
    ¬ parseSetExtension (Sch.setS {} (Sch.strS {}))
        (.addU (some (.str ("a")))) false none =
      .ext (.ok [(UVal.addU (some (.str ("a"))), true)]) := by
  refine ⟨by simp [conforms], ?_⟩
  intro h
  simp [parseSetExtension, extRun, parse, fillValidate, fillResolve,
    checkDefined, Sch.props, andThenValidate] at h

/-- Claim C3 (amended): for every Set schema, parsing `{DELETE: v}`
where `v` fails the set schema's own top-level type check (it is not
a set value) raises TypeMismatch at the base path extended by the
segment `$DELETE` — the source appends the literal string `'$DELETE'`,
not `'DELETE'`. -/
theorem setExtension_delete_type_mismatch (p : SchemaProps) (e : Sch)
    (v : Val) (t : Bool) (vp : Option (List Seg))
    (h : isSetVal v = false) :
    parseSetExtension (Sch.setS p e) (.deleteU (some v)) t vp =
      .ext (.error
        ⟨vp.getD [] ++ [Seg.attr ("$DELETE")], .typeMismatch⟩) := by
  cases v with
  | setV vs => simp [isSetVal] at h
  | str s =>
    simp [parseSetExtension, extRun, parse, fillValidate, fillResolve,
      checkDefined, Sch.props, andThenValidate]
  | num n =>
    simp [parseSetExtension, extRun, parse, fillValidate, fillResolve,
      checkDefined, Sch.props, andThenValidate]
  | boolV b =>
    simp [parseSetExtension, extRun, parse, fillValidate, fillResolve,
      checkDefined, Sch.props, andThenValidate]
  | listV vs =>
    simp [parseSetExtension, extRun, parse, fillValidate, fillResolve,
      checkDefined, Sch.props, andThenValidate]
  | mapV kvs =>
    simp [parseSetExtension, extRun, parse, fillValidate, fillResolve,
      checkDefined, Sch.props, andThenValidate]

/-- Claim C3 witness: deleting the number 3 from a set-of-strings
attribute fails with TypeMismatch at the `$DELETE` segment. -/
theorem setExtension_delete_type_mismatch_witness :
    isSetVal (Val.num 3) = false ∧
    parseSetExtension (Sch.setS {} (Sch.strS {}))
        (.deleteU (some (.num 3))) false none =
      .ext (.error ⟨[Seg.attr ("$DELETE")], .typeMismatch⟩) :=
  ⟨rfl, by
    rw [setExtension_delete_type_mismatch {} (Sch.strS {}) (.num 3) false
      none rfl]
    rfl⟩

/-- Claim C3 counterexample: the segment the source appends to the error
path is the literal string `'$DELETE'`, which is not the claimed
segment `'DELETE'`. -/
theorem setExtension_delete_path_refuted :
    parseSetExtension (Sch.setS {} (Sch.strS {}))
        (.deleteU (some (.num 3))) false none =
      .ext (.error ⟨[Seg.attr ("$DELETE")], .typeMismatch⟩) ∧
    Seg.attr ("$DELETE") ≠ Seg.attr ("DELETE") := by
  refine ⟨?_, by decide⟩
  simp [parseSetExtension, extRun, parse, fillValidate, fillResolve,
    checkDefined, Sch.props, andThenValidate]

/-- Claim C4: for every recognized sentinel input whose operand parse
succeeds, the producer obeys the two-resume contract: resume 1 yields
the filled form re-wrapped under the same tag and, when transform is
off, reports done (the producer is exhausted); when transform is on, a
second resume yields the transformed form under the same tag and then
reports done. -/
theorem setExtension_two_resume_contract (s : Sch) (v w : Val) (t : Bool)
    (vp : Option (List Seg)) (r q : PRun)
    (hA : parse s (some v)
      { fill := false, transform := t,
        valuePath := vp.getD [] ++ [Seg.attr ("$ADD")] } = .ok r)
    (hD : parse s (some w)
      { fill := false, transform := t,
        valuePath := vp.getD [] ++ [Seg.attr ("$DELETE")] } = .ok q) :
    parseSetExtension s (.addU (some v)) t vp =
      .ext (.ok (match t with
        | true => [(UVal.addU r.filled, false), (UVal.addU r.transformed, true)]
        | false => [(UVal.addU r.filled, true)])) ∧
    parseSetExtension s (.deleteU (some w)) t vp =
      .ext (.ok (match t with
        | true =>
          [(UVal.deleteU q.filled, false), (UVal.deleteU q.transformed, true)]
        | false => [(UVal.deleteU q.filled, true)])) := by
  cases t with
  | false =>
    refine ⟨?_, ?_⟩
    · simp only [parseSetExtension, extRun]
      rw [hA]
    · simp only [parseSetExtension, extRun]
      rw [hD]
  | true =>
    refine ⟨?_, ?_⟩
    · simp only [parseSetExtension, extRun]
      rw [hA]
    · simp only [parseSetExtension, extRun]
      rw [hD]

/-- Claim C4 witness: with transform on, both resumes of the ADD and
DELETE producers are observed for a concrete set-of-strings schema. -/
theorem setExtension_two_resume_contract_witness :
    parseSetExtension (Sch.setS {} (Sch.strS {}))
        (.addU (some (.setV [.str ("a")]))) true none =
      .ext (.ok [(UVal.addU (some (.setV [.str ("a")])), false),
        (UVal.addU (some (.setV [.str ("a")])), true)]) ∧
    parseSetExtension (Sch.setS {} (Sch.strS {}))
        (.deleteU (some (.setV [.str ("a")]))) true none =
      .ext (.ok [(UVal.deleteU (some (.setV [.str ("a")])), false),
        (UVal.deleteU (some (.setV [.str ("a")])), true)]) :=
  setExtension_two_resume_contract (Sch.setS {} (Sch.strS {}))
    (.setV [.str ("a")]) (.setV [.str ("a")]) true none
    ⟨some (.setV [.str ("a")]), some (.setV [.str ("a")])⟩
    ⟨some (.setV [.str ("a")]), some (.setV [.str ("a")])⟩
    (by simp [parse, fillValidate, fillResolve, checkDefined, Sch.props,
      modeValidator, andThenValidate, mapIdxM, elemParse, elemUnwrap,
      okSetV, runValidator, transformOpt, transformVal, applyEncode])
    (by simp [parse, fillValidate, fillResolve, checkDefined, Sch.props,
      modeValidator, andThenValidate, mapIdxM, elemParse, elemUnwrap,
      okSetV, runValidator, transformOpt, transformVal, applyEncode])

/-- Claim C8: required-ness depends only on the required mode and the
active write mode (`always` in every mode, `never` in no mode,
`atLeastOnce` exactly in create mode), and an absent `atLeastOnce`
attribute with no default and no link parses in update mode but fails
in create mode, with fill on, with RequiredAttributeMissing at the
attribute's path. -/
theorem requiredness_per_mode (n : String) (p : SchemaProps)
    (h1 : effRequired p = .atLeastOnce)
    (h2 : p.updateLink = none) (h3 : p.updateDefault = none)
    (h4 : p.putLink = none) (h5 : p.putDefault = none) :
    (∀ m, requiredInMode .always m = true) ∧
    (∀ m, requiredInMode .never m = false) ∧
    (∀ m, requiredInMode .atLeastOnce m = true ↔ m = .put) ∧
    parse (Sch.mapS {} (.acons n (Sch.strS p) .anil)) (some (.mapV []))
      { fill := true, transform := false, mode := .update } =
      .ok ⟨some (.mapV []), some (.mapV [])⟩ ∧
    parse (Sch.mapS {} (.acons n (Sch.strS p) .anil)) (some (.mapV []))
      { fill := true, transform := false, mode := .put } =
      .error ⟨[Seg.attr n], .requiredAttributeMissing⟩ := by
  have h1' : p.required.getD RequiredMode.atLeastOnce =
      RequiredMode.atLeastOnce := h1
  refine ⟨fun m => rfl, fun m => rfl, fun m => ?_, ?_, ?_⟩
  · cases m <;> simp [requiredInMode]
  · simp [parse, fillValidate, fillResolve, checkDefined, Sch.props,
      modeValidator, modeLink, modeDefault, andThenValidate,
      requiredInMode, effRequired, mapGuard, checkAttrs, lookupKV,
      eraseKV, nameMem, runValidator, h1', h2, h3]
  · simp [parse, fillValidate, fillResolve, checkDefined, Sch.props,
      modeValidator, modeLink, modeDefault, andThenValidate,
      requiredInMode, effRequired, mapGuard, checkAttrs, lookupKV,
      eraseKV, nameMem, runValidator, h1', h4, h5]

/-- Claim C8 witness: the mode-dependent behavior at a concrete
single-attribute item schema. -/
theorem requiredness_per_mode_witness :
    parse (Sch.mapS {} (.acons ("a") (Sch.strS {}) .anil))
      (some (.mapV []))
      { fill := true, transform := false, mode := .update } =
      .ok ⟨some (.mapV []), some (.mapV [])⟩ ∧
    parse (Sch.mapS {} (.acons ("a") (Sch.strS {}) .anil))
      (some (.mapV []))
      { fill := true, transform := false, mode := .put } =
      .error ⟨[Seg.attr ("a")], .requiredAttributeMissing⟩ :=
  ⟨(requiredness_per_mode ("a") {} rfl rfl rfl rfl rfl).2.2.2.1,
    (requiredness_per_mode ("a") {} rfl rfl rfl rfl rfl).2.2.2.2⟩

/-- Claim C9 (amended): with fill and transform both off, parsing an
input that matches the schema's shape (in the active mode) and is
accepted by every configured validator for that mode returns the input
unchanged at both checkpoints. -/
theorem parse_identity (m : Mode) (sch : Sch) (v : Val) (path : List Seg)
    (hc : conforms m sch v = true) (hv : valsOk m sch v = true) :
    parse sch (some v)
      { fill := false, transform := false, mode := m, valuePath := path } =
      .ok ⟨some v, some v⟩ :=
  parse_id_helper m sch v path hc hv

/-- Claim C9 witness: a nested item with a string attribute and a
number-set attribute round-trips unchanged. -/
theorem parse_identity_witness :
    parse (Sch.mapS {} (.acons ("a") (Sch.strS {})
        (.acons ("b") (Sch.setS {} (Sch.numS {})) .anil)))
      (some (.mapV [(("a"), .str ("x")), (("b"), .setV [.num 1, .num 2])]))
      { fill := false, transform := false, mode := .update,
        valuePath := [] } =
      .ok ⟨some (.mapV [(("a"), .str ("x")),
          (("b"), .setV [.num 1, .num 2])]),
        some (.mapV [(("a"), .str ("x")),
          (("b"), .setV [.num 1, .num 2])])⟩ :=
  parse_identity .update _ _ []
    (by simp [conforms, conformsAttrs, nameMem, requiredInMode,
      effRequired, Sch.props])
    (by simp [valsOk, valsOkAttrs, acceptsValidator, modeValidator,
      Sch.props])

/-- Claim C9 counterexample: a schema carrying a rejecting put-mode
validator makes the fill-off transform-off parse of a shape-conforming
input fail instead of returning the input. -/
theorem parse_identity_refuted :
    conforms .put (Sch.strS { putValidator := some (fun _ => ValidRes.fail) })
      (.str ("a")) = true ∧
    ¬ parse (Sch.strS { putValidator := some (fun _ => ValidRes.fail) })
        (some (.str ("a")))
        { fill := false, transform := false, mode := .put,
          valuePath := [] } =
      .ok ⟨some (.str ("a")), some (.str ("a"))⟩ := by
  refine ⟨by simp [conforms], ?_⟩
  intro h
  simp [parse, fillValidate, fillResolve, checkDefined, Sch.props,
    modeValidator, andThenValidate, runValidator] at h
